import Mathlib

/-!
Shallow embedding of the Tidal-DL core (session lifecycle, HTTP retry
wrapper, manifest resolvers and segment reassembly) together with proofs
about the embedded operations.

Conventions used throughout:
* JavaScript nullable fields are `Option` values; JS truthiness of such a
  field (`null`, `""` and `0` are falsy) is made explicit by the
  `jsTruthyStr` / `jsTruthyNat` helpers.
* Timestamps (`Date.now()`, expiry fields) are naturals counting
  milliseconds.
* Network effects are passed in explicitly: a function that performs
  `fetch` takes the sequence of outcomes the network would produce and
  returns the trace of observable events next to its result.
-/

namespace TidalDL

/-- JS truthiness of a nullable string field: `null` and `""` are falsy. -/
def jsTruthyStr : Option String → Bool
  | none => false
  | some s => s ≠ ""

/-- JS truthiness of a nullable number field: `null` and `0` are falsy. -/
def jsTruthyNat : Option Nat → Bool
  | none => false
  | some n => n ≠ 0

/-- The JS idiom `x || null` on a nullable string: falsy values collapse to
`null`. -/
def orNullStr (o : Option String) : Option String :=
  if jsTruthyStr o then o else none

/-- The JS idiom `x || null` on a nullable number. -/
def orNullNat (o : Option Nat) : Option Nat :=
  if jsTruthyNat o then o else none

/-- Field record of `TidalSession` (auth-session module of the source).
Instances built by the class constructor normalise every field with
`initialData.field || null`; see `TidalSession.ofInit`. -/
structure TidalSession where
  deviceCode : Option String
  userCode : Option String
  verificationUrl : Option String
  authCheckTimeout : Option Nat
  authCheckInterval : Option Nat
  userId : Option Nat
  countryCode : Option String
  accessToken : Option String
  refreshToken : Option String
  tokenExpiresAt : Option Nat
deriving DecidableEq, Repr

/-- The `TidalSession` constructor: each field of `initialData` is taken
with `|| null`, so falsy inputs become `null`. -/
def TidalSession.ofInit (d : TidalSession) : TidalSession where
  deviceCode := orNullStr d.deviceCode
  userCode := orNullStr d.userCode
  verificationUrl := orNullStr d.verificationUrl
  authCheckTimeout := orNullNat d.authCheckTimeout
  authCheckInterval := orNullNat d.authCheckInterval
  userId := orNullNat d.userId
  countryCode := orNullStr d.countryCode
  accessToken := orNullStr d.accessToken
  refreshToken := orNullStr d.refreshToken
  tokenExpiresAt := orNullNat d.tokenExpiresAt

/-- `isAccessTokenValid()`:
`this.accessToken && this.tokenExpiresAt && Date.now() < this.tokenExpiresAt`. -/
def TidalSession.isAccessTokenValid (s : TidalSession) (now : Nat) : Bool :=
  jsTruthyStr s.accessToken && jsTruthyNat s.tokenExpiresAt
    && decide (now < s.tokenExpiresAt.getD 0)

/-- `hasRefreshToken()`: `!!this.refreshToken`. -/
def TidalSession.hasRefreshToken (s : TidalSession) : Bool :=
  jsTruthyStr s.refreshToken

/-- The `user` object optionally carried by a token-endpoint response. -/
structure TokenUser where
  userId : Nat
  countryCode : String
deriving DecidableEq, Repr

/-- Body of a successful token-endpoint response. -/
structure TokenResponse where
  access_token : String
  refresh_token : Option String
  expires_in : Nat
  user : Option TokenUser
deriving DecidableEq, Repr

/-- `updateTokens(tokenResponse)`: unconditionally overwrite the access
token and expiry; overwrite the refresh token only when the response
carries a truthy `refresh_token`; overwrite user id / country code only
when the response carries a `user` object. -/
def TidalSession.updateTokens (s : TidalSession) (r : TokenResponse) (now : Nat) :
    TidalSession :=
  let s1 := { s with accessToken := some r.access_token }
  let s2 :=
    if jsTruthyStr r.refresh_token then { s1 with refreshToken := r.refresh_token } else s1
  let s3 := { s2 with tokenExpiresAt := some (now + r.expires_in * 1000) }
  match r.user with
  | some u => { s3 with userId := some u.userId, countryCode := some u.countryCode }
  | none => s3

/-- `clearAuthDetails()`: null out every token-related field. -/
def TidalSession.clearAuthDetails (s : TidalSession) : TidalSession :=
  { s with accessToken := none, refreshToken := none, tokenExpiresAt := none,
           userId := none, countryCode := none }

/-- `clearDeviceAuthDetails()`: null out every device-flow field. -/
def TidalSession.clearDeviceAuthDetails (s : TidalSession) : TidalSession :=
  { s with deviceCode := none, userCode := none, verificationUrl := none,
           authCheckTimeout := none, authCheckInterval := none }

/-- Shape of the JSON object written by `saveSession`: exactly the five
token-related fields, nothing else. -/
structure SavedSessionRecord where
  userId : Option Nat
  countryCode : Option String
  accessToken : Option String
  refreshToken : Option String
  tokenExpiresAt : Option Nat
deriving DecidableEq, Repr

/-- The record `saveSession` serialises for a given session. -/
def saveSessionRecord (s : TidalSession) : SavedSessionRecord :=
  ⟨s.userId, s.countryCode, s.accessToken, s.refreshToken, s.tokenExpiresAt⟩

/-- The all-null session produced by `new TidalSession()`. -/
def freshSession : TidalSession :=
  ⟨none, none, none, none, none, none, none, none, none, none⟩

/-- `loadSession()`: `none` stands for a missing or unparsable session
file (non-fatal, yields a fresh session); otherwise the parsed record is
fed through the `TidalSession` constructor, so device-flow fields (absent
from the record) come back `null`. -/
def loadSession : Option SavedSessionRecord → TidalSession
  | none => TidalSession.ofInit freshSession
  | some r =>
      TidalSession.ofInit
        ⟨none, none, none, none, none,
         r.userId, r.countryCode, r.accessToken, r.refreshToken, r.tokenExpiresAt⟩

/-- Outcome of the token-endpoint call made by `refreshAccessToken`:
either `response.ok` with a parsed body, or a non-ok HTTP response. -/
inductive RefreshOutcome where
  | ok (tokenData : TokenResponse)
  | httpError
deriving DecidableEq, Repr

/-- Result of one `refreshAccessToken(session)` invocation: the mutated
session, the record written to the session file (if any write happened),
and the boolean the function returns. -/
structure RefreshStep where
  session : TidalSession
  persisted : Option SavedSessionRecord
  succeeded : Bool
deriving DecidableEq, Repr

/-- `refreshAccessToken(session)` (named `attemptTokenRefresh` in the
second auth module): early-return `false` when no truthy refresh token is
held; on an ok response update tokens, persist, return `true`; on a non-ok
response clear all token fields, persist the cleared state, return
`false`. -/
def attemptTokenRefresh (s : TidalSession) (outcome : RefreshOutcome) (now : Nat) :
    RefreshStep :=
  if s.hasRefreshToken then
    match outcome with
    | .ok tokenData =>
        let s' := s.updateTokens tokenData now
        ⟨s', some (saveSessionRecord s'), true⟩
    | .httpError =>
        let s' := s.clearAuthDetails
        ⟨s', some (saveSessionRecord s'), false⟩
  else ⟨s, none, false⟩

/-- What one `fetch` call inside `fetchWithRetry` produces: an HTTP
response (status plus optional numeric `Retry-After` header, in seconds),
or a network-level failure (the promise rejects). -/
inductive FetchOutcome where
  | http (status : Nat) (retryAfter : Option Nat)
  | netError
deriving DecidableEq, Repr

/-- Observable events of a `fetchWithRetry` run: each issued request and
each sleep (in milliseconds). -/
inductive FetchEvent where
  | request
  | sleepMs (ms : Nat)
deriving DecidableEq, Repr

/-- Final result of a `fetchWithRetry` run: a returned response, a thrown
network error (last attempt failed), or the throw after the loop exits
with every attempt consumed. -/
inductive FetchResult where
  | response (status : Nat) (retryAfter : Option Nat)
  | netFail
  | exhausted
deriving DecidableEq, Repr

/-- Default used when the `Retry-After` header is absent:
`parseInt(response.headers.get('Retry-After') || "20", 10)`. -/
def defaultRetryAfterSeconds : Nat := 20

/-- The `for (let attempt = 0; attempt < maxRetries; attempt++)` loop of
`fetchWithRetry`.  `attempt` is the current loop index, the second `Nat`
argument the number of remaining iterations (`maxRetries - attempt`).
On a 429 the code sleeps `retryAfter * 1000` ms and hits `continue`,
which still runs the `attempt++` update; on a network error it rethrows
when `attempt === maxRetries - 1` and otherwise sleeps
`2000 * (attempt + 1)` ms; any non-429 response is returned as-is. -/
def fetchWithRetryGo (outcomes : Nat → FetchOutcome) (attempt : Nat) :
    Nat → List FetchEvent × FetchResult
  | 0 => ([], .exhausted)
  | remaining + 1 =>
    match outcomes attempt with
    | .http status retryAfter =>
      if status = 429 then
        let wait := retryAfter.getD defaultRetryAfterSeconds * 1000
        let next := fetchWithRetryGo outcomes (attempt + 1) remaining
        (.request :: .sleepMs wait :: next.1, next.2)
      else
        ([.request], .response status retryAfter)
    | .netError =>
      if remaining = 0 then ([.request], .netFail)
      else
        let next := fetchWithRetryGo outcomes (attempt + 1) remaining
        (.request :: .sleepMs (2000 * (attempt + 1)) :: next.1, next.2)

/-- `fetchWithRetry(url, options, maxRetries)` where `outcomes i` is what
the `i`-th `fetch` call comes back with. -/
def fetchWithRetry (outcomes : Nat → FetchOutcome) (maxRetries : Nat) :
    List FetchEvent × FetchResult :=
  fetchWithRetryGo outcomes 0 maxRetries

/-- `content.split('\n')` at the character level. -/
def splitOnNL : List Char → List (List Char)
  | [] => [[]]
  | c :: cs =>
    let rest := splitOnNL cs
    if c = '\n' then [] :: rest
    else
      match rest with
      | [] => [[c]]
      | l :: ls => (c :: l) :: ls

/-- `line.trim()`. -/
def jsTrim (s : List Char) : List Char :=
  ((s.dropWhile Char.isWhitespace).reverse.dropWhile Char.isWhitespace).reverse

/-- Digit run to number, base 10 (`parseInt` on a nonempty digit string). -/
def digitsToNat (ds : List Char) : Nat :=
  ds.foldl (fun a c => a * 10 + (c.toNat - '0'.toNat)) 0

/-- First match of the regex `PAT(\d+)` in a line, e.g. `BANDWIDTH=(\d+)`:
scan for an occurrence of `pat` followed by at least one digit and return
the maximal digit run there; on a bare occurrence with no digit the scan
resumes one character further, as a regex engine would. -/
def findDigitsAfter (pat : List Char) : List Char → Option Nat
  | [] => none
  | c :: cs =>
    if pat.isPrefixOf (c :: cs) then
      let digits := ((c :: cs).drop pat.length).takeWhile Char.isDigit
      if digits.isEmpty then findDigitsAfter pat cs
      else some (digitsToNat digits)
    else findDigitsAfter pat cs

/-- Try to read `\d+x\d+` at the head of `after` (the capture of the
`RESOLUTION=(\d+x\d+)` regex). -/
def matchResolutionAt (after : List Char) : Option (List Char) :=
  let d1 := after.takeWhile Char.isDigit
  if d1.isEmpty then none
  else
    match after.drop d1.length with
    | 'x' :: rest2 =>
      let d2 := rest2.takeWhile Char.isDigit
      if d2.isEmpty then none else some (d1 ++ 'x' :: d2)
    | _ => none

/-- First match of `RESOLUTION=(\d+x\d+)` in a line. -/
def findResolution : List Char → Option (List Char)
  | [] => none
  | c :: cs =>
    if ("RESOLUTION=".toList).isPrefixOf (c :: cs) then
      match matchResolutionAt ((c :: cs).drop ("RESOLUTION=".toList).length) with
      | some r => some r
      | none => findResolution cs
    else findResolution cs

/-- First match of `CODECS="([^"]+)"` in a line: the occurrence needs a
nonempty quote-free body and a closing quote. -/
def findCodecs : List Char → Option (List Char)
  | [] => none
  | c :: cs =>
    if ("CODECS=\"".toList).isPrefixOf (c :: cs) then
      let after := (c :: cs).drop ("CODECS=\"".toList).length
      let body := after.takeWhile (fun ch => ch ≠ '"')
      if body.isEmpty then findCodecs cs
      else
        match after.drop body.length with
        | '"' :: _ => some body
        | _ => findCodecs cs
    else findCodecs cs

/-- One entry of the list returned by `parseM3U8MasterPlaylist`. -/
structure StreamVariant where
  resolution : String
  bandwidth : Nat
  codecs : String
  url : String
deriving DecidableEq, Repr

/-- The object pushed for one marker/URL pair: absent attributes default
to `'Unknown'` (resolution, codecs) or `0` (bandwidth). -/
def mkStreamVariant (info url : List Char) : StreamVariant where
  resolution := ((findResolution info).map List.asString).getD "Unknown"
  bandwidth := (findDigitsAfter ("BANDWIDTH=".toList) info).getD 0
  codecs := ((findCodecs info).map List.asString).getD "Unknown"
  url := url.asString

/-- The `#EXT-X-STREAM-INF:` stream-information marker test. -/
def isStreamInfMarker (t : List Char) : Bool :=
  ("#EXT-X-STREAM-INF:".toList).isPrefixOf t

/-- `trimmedLine.startsWith('http://') || trimmedLine.startsWith('https://')`. -/
def isAbsoluteUrlStart (t : List Char) : Bool :=
  ("http://".toList).isPrefixOf t || ("https://".toList).isPrefixOf t

/-- The line scan of `parseM3U8MasterPlaylist`: remember the latest
stream-information marker; on a following absolute-URL line emit one
variant and forget the marker; every other line leaves the state alone. -/
def scanMasterLines : List (List Char) → Option (List Char) → List StreamVariant
  | [], _ => []
  | line :: rest, pending =>
    let t := jsTrim line
    if isStreamInfMarker t then
      scanMasterLines rest (some t)
    else
      match pending with
      | some info =>
        if isAbsoluteUrlStart t then
          mkStreamVariant info t :: scanMasterLines rest none
        else
          scanMasterLines rest (some info)
      | none => scanMasterLines rest none

/-- Comparator order of `streams.sort((a, b) => b.bandwidth - a.bandwidth)`:
`a` may come before `b` iff `b.bandwidth ≤ a.bandwidth`. -/
def vcmp (a b : StreamVariant) : Prop :=
  b.bandwidth ≤ a.bandwidth

instance : DecidableRel vcmp :=
  fun a b => inferInstanceAs (Decidable (b.bandwidth ≤ a.bandwidth))

instance : IsTotal StreamVariant vcmp :=
  ⟨fun a b => Nat.le_total b.bandwidth a.bandwidth⟩

instance : IsTrans StreamVariant vcmp :=
  ⟨fun _ _ _ h1 h2 => le_trans h2 h1⟩

/-- `parseM3U8MasterPlaylist(m3u8Content)`: scan the lines, then sort by
descending bandwidth.  ECMAScript requires `Array.prototype.sort` to be
stable, so the sort step is the unique stable descending-bandwidth
reordering, which `List.insertionSort` computes. -/
def parseM3U8MasterPlaylist (content : String) : List StreamVariant :=
  List.insertionSort vcmp (scanMasterLines (splitOnNL content.toList) none)

/-- One `<S>` element of the segment timeline as xml2js presents it:
attribute strings under `$`, both optional. -/
structure TimelineSliceS where
  d : Option String
  r : Option String
deriving DecidableEq, Repr

/-- One `<SegmentTimeline>` element: its `S` child array (absent when the
element has no `<S>` children). -/
structure SegmentTimelineX where
  S : Option (List TimelineSliceS)
deriving DecidableEq, Repr

/-- One `<SegmentTemplate>` element: attribute strings plus child array. -/
structure SegmentTemplateX where
  initialization : Option String
  media : Option String
  startNumber : Option String
  SegmentTimeline : Option (List SegmentTimelineX)
deriving DecidableEq, Repr

/-- One `<Representation>` element. -/
structure RepresentationX where
  SegmentTemplate : Option (List SegmentTemplateX)
deriving DecidableEq, Repr

/-- One `<AdaptationSet>` element. -/
structure AdaptationSetX where
  Representation : Option (List RepresentationX)
deriving DecidableEq, Repr

/-- One `<Period>` element. -/
structure PeriodX where
  AdaptationSet : Option (List AdaptationSetX)
deriving DecidableEq, Repr

/-- The `<MPD>` root element. -/
structure MPDX where
  Period : Option (List PeriodX)
deriving DecidableEq, Repr

/-- A parsed audio manifest document (result of `parseStringPromise`). -/
structure ManifestDoc where
  MPD : Option MPDX
deriving DecidableEq, Repr

/-- The optional chain
`parsedXml?.MPD?.Period?.[0]?.AdaptationSet?.[0]?.Representation?.[0]`. -/
def findRepresentation (doc : ManifestDoc) : Option RepresentationX :=
  ((((doc.MPD.bind (·.Period)).bind List.head?).bind
      (·.AdaptationSet)).bind List.head?).bind
    fun adSet => (adSet.Representation).bind List.head?

/-- `parseInt(s, 10)`: skip leading whitespace, optional sign, then a
maximal digit run; `none` models `NaN` (no digits found). -/
def jsParseInt (s : String) : Option Int :=
  match s.toList.dropWhile Char.isWhitespace with
  | '-' :: rest =>
    let ds := rest.takeWhile Char.isDigit
    if ds.isEmpty then none else some (-(digitsToNat ds : Int))
  | '+' :: rest =>
    let ds := rest.takeWhile Char.isDigit
    if ds.isEmpty then none else some ((digitsToNat ds : Int))
  | cs =>
    let ds := cs.takeWhile Char.isDigit
    if ds.isEmpty then none else some ((digitsToNat ds : Int))

/-- `s.replace(pat, rep)` with a string pattern: JS replaces only the
first occurrence (or returns the string unchanged when there is none). -/
def replaceFirstChars (pat rep : List Char) : List Char → List Char
  | [] => if pat.isEmpty then rep else []
  | c :: cs =>
    if pat.isPrefixOf (c :: cs) then rep ++ (c :: cs).drop pat.length
    else c :: replaceFirstChars pat rep cs

/-- String wrapper of `replaceFirstChars`. -/
def jsReplaceFirst (s pat rep : String) : String :=
  (replaceFirstChars pat.toList rep.toList s.toList).asString

/-- `path.basename(new URL(url, 'http://dummybase').pathname)` followed by
`.replace(/\?.*/, '')`: the query/fragment is cut off and the part after
the last slash is kept.  (URL normalisation such as percent-decoding or
dot-segment resolution is elided; the manifests at hand never need it.) -/
def urlBasename (url : String) : String :=
  let noQuery := url.toList.takeWhile (fun ch => ch ≠ '?' && ch ≠ '#')
  (noQuery.foldl (fun acc ch => if ch = '/' then [] else acc ++ [ch]) []).asString

/-- A JS number that is either an integer or `NaN` (`none`): `NaN` prints
as `"NaN"`. -/
def jsNumToString : Option Int → String
  | none => "NaN"
  | some k => toString k

/-- `n++` on a possibly-`NaN` JS number: `NaN` propagates. -/
def jsNumInc : Option Int → Option Int
  | none => none
  | some k => some (k + 1)

/-- Number of iterations the inner loop
`for (let i = 0; i <= repeatCount; i++)` runs for one timeline slice,
where `repeatCount = segment.$.r ? parseInt(segment.$.r, 10) : 0`:
one iteration when `r` is absent or falsy, `k + 1` for a nonnegative
numeric `r = k`, and zero when `parseInt` gives `NaN` or a negative
value (the loop guard fails immediately). -/
def sliceEmitCount (sl : TimelineSliceS) : Nat :=
  if jsTruthyStr sl.r then
    match jsParseInt (sl.r.getD "") with
    | none => 0
    | some k => if k < 0 then 0 else k.toNat + 1
  else 1

/-- The inner loop of the timeline walk: emit `count` media descriptors
(URL and local basename), substituting the running segment number into the
`$Number$` placeholder and incrementing it per emitted descriptor; also
return the final segment number. -/
def emitMediaSegments (media : String) : Option Int → Nat →
    List (String × String) × Option Int
  | cur, 0 => ([], cur)
  | cur, count + 1 =>
    let url := jsReplaceFirst media "$Number$" (jsNumToString cur)
    let next := emitMediaSegments media (jsNumInc cur) count
    ((url, urlBasename url) :: next.1, next.2)

/-- The `segmentTimelineSlices.forEach(...)` walk: per slice run the inner
loop, threading the running segment number through. -/
def buildTimelineSegments (media : String) : Option Int → List TimelineSliceS →
    List (String × String)
  | _, [] => []
  | cur, sl :: rest =>
    let step := emitMediaSegments media cur (sliceEmitCount sl)
    step.1 ++ buildTimelineSegments media step.2 rest

/-- What `parseManifestAndExtractSegments` returns on success. -/
structure SegmentListing where
  segmentUrls : List String
  segmentBasenames : List String
deriving DecidableEq, Repr

/-- `parseManifestAndExtractSegments(manifestXml)` after XML parsing: walk
to the first Representation's SegmentTemplate, require `initialization`,
`media` and `startNumber` attributes and a nonempty `S` array, then emit
the initialization descriptor followed by the timeline's media
descriptors.  Each missing requirement throws (is a fatal manifest
error). -/
def parseManifestAndExtractSegments (doc : ManifestDoc) : Except String SegmentListing :=
  match findRepresentation doc with
  | none => .error "Could not find Representation element in XML manifest."
  | some rep =>
    match rep.SegmentTemplate.bind List.head? with
    | none => .error "Could not find SegmentTemplate element in XML manifest."
    | some st =>
      if jsTruthyStr st.initialization && jsTruthyStr st.media
          && jsTruthyStr st.startNumber then
        match (st.SegmentTimeline.bind List.head?).bind (·.S) with
        | none => .error "Manifest SegmentTimeline S array is missing or empty."
        | some slices =>
          if slices.isEmpty then
            .error "Manifest SegmentTimeline S array is missing or empty."
          else
            let init := st.initialization.getD ""
            let media := st.media.getD ""
            let pairs :=
              buildTimelineSegments media (jsParseInt (st.startNumber.getD "")) slices
            .ok ⟨init :: pairs.map Prod.fst, urlBasename init :: pairs.map Prod.snd⟩
      else
        .error
          "Manifest SegmentTemplate is missing critical attributes (initialization, media, or startNumber)."

/-- The reassembly loop of `downloadMusicTrack` / `downloadVideo`: for
each expected basename in descriptor order, read the file from the temp
directory and append its bytes; an unreadable or missing file (`none`)
only logs a warning and is skipped. -/
def reassembleSegments (tempFiles : String → Option (List Nat)) : List String → List Nat
  | [] => []
  | name :: rest =>
    match tempFiles name with
    | some bytes => bytes ++ reassembleSegments tempFiles rest
    | none => reassembleSegments tempFiles rest

/-- The whole reassembly step: the loop never throws (skips are mere
warnings), so with a healthy output stream the job always reaches its
`{ success: true }` return, carrying the concatenated bytes. -/
def reassembleJob (tempFiles : String → Option (List Nat)) (names : List String) :
    Except String (List Nat) :=
  .ok (reassembleSegments tempFiles names)

/-! Helper lemmas about the `|| null` normalisation. -/

theorem orNullStr_eq_none_or (o : Option String) :
    orNullStr o = none ∨ ∃ s, orNullStr o = some s ∧ s ≠ "" := by
  cases o with
  | none => left; rfl
  | some s =>
    by_cases h : s = ""
    · left; simp [orNullStr, jsTruthyStr, h]
    · right; exact ⟨s, by simp [orNullStr, jsTruthyStr, h], h⟩

theorem orNullNat_eq_none_or (o : Option Nat) :
    orNullNat o = none ∨ ∃ n, orNullNat o = some n ∧ n ≠ 0 := by
  cases o with
  | none => left; rfl
  | some n =>
    by_cases h : n = 0
    · left; simp [orNullNat, jsTruthyNat, h]
    · right; exact ⟨n, by simp [orNullNat, jsTruthyNat, h], h⟩

/-- C4: for every session produced by the `TidalSession` constructor and
every current time, `isAccessTokenValid()` returns true iff an access
token is present and the current time is strictly before the token's
expiry timestamp; in particular it is false when no token is stored and
false when the expiry equals or precedes the current time. -/
theorem isAccessTokenValid_iff_present_and_unexpired (d : TidalSession) (now : Nat) :
    (TidalSession.ofInit d).isAccessTokenValid now = true ↔
      ((TidalSession.ofInit d).accessToken ≠ none ∧
        ∃ t, (TidalSession.ofInit d).tokenExpiresAt = some t ∧ now < t) := by
  rcases orNullStr_eq_none_or d.accessToken with h1 | ⟨s, h1, hs⟩
  · rcases orNullNat_eq_none_or d.tokenExpiresAt with h2 | ⟨t, h2, ht⟩
    · simp [TidalSession.isAccessTokenValid, TidalSession.ofInit, h1, h2,
        jsTruthyStr, jsTruthyNat]
    · simp [TidalSession.isAccessTokenValid, TidalSession.ofInit, h1, h2,
        jsTruthyStr, jsTruthyNat, ht]
  · rcases orNullNat_eq_none_or d.tokenExpiresAt with h2 | ⟨t, h2, ht⟩
    · simp [TidalSession.isAccessTokenValid, TidalSession.ofInit, h1, h2,
        jsTruthyStr, jsTruthyNat, hs]
    · simp [TidalSession.isAccessTokenValid, TidalSession.ofInit, h1, h2,
        jsTruthyStr, jsTruthyNat, hs, ht]

/-- Reassembly skips exactly the absent files: the loop result is the
concatenation of the present segments' bytes, in descriptor order. -/
theorem reassembleSegments_eq_flatten_filterMap
    (tempFiles : String → Option (List Nat)) (names : List String) :
    reassembleSegments tempFiles names = (names.filterMap tempFiles).flatten := by
  induction names with
  | nil => rfl
  | cons name rest ih =>
    cases h : tempFiles name <;>
      simp [reassembleSegments, List.filterMap_cons, h, ih]

/-- Expected temp-directory contents for the C6 example: five descriptors
`s1 … s5`, with `s3`'s file absent. -/
def c6TempFiles : String → Option (List Nat) := fun name =>
  if name = "s1" then some [1, 2]
  else if name = "s2" then some [3]
  else if name = "s4" then some [4, 5]
  else if name = "s5" then some [6]
  else none

/-- Descriptor basenames, in ordinal order, for the C6 example. -/
def c6Names : List String := ["s1", "s2", "s3", "s4", "s5"]

/-- C6: for every descriptor sequence and temp-directory contents, the
reassembly step succeeds and its output is exactly the concatenation of
the present segments' bytes in descriptor order (missing files are
skipped, not fatal); in particular 5 descriptors with descriptor 3's file
absent produce the concatenation of descriptors 1, 2, 4, 5. -/
theorem reassembly_skips_missing_segments :
    (∀ (tempFiles : String → Option (List Nat)) (names : List String),
        reassembleJob tempFiles names = .ok ((names.filterMap tempFiles).flatten)) ∧
      reassembleJob c6TempFiles c6Names = .ok ([1, 2] ++ [3] ++ [4, 5] ++ [6]) := by
  constructor
  · intro tempFiles names
    unfold reassembleJob
    rw [reassembleSegments_eq_flatten_filterMap]
  · rfl

/-- C10: `updateTokens` leaves the refresh token unchanged when the
response carries no `refresh_token`, leaves user id and country code
unchanged when the response carries no `user` object, and never clears an
existing refresh token. -/
theorem updateTokens_frame (s : TidalSession) (r : TokenResponse) (now : Nat) :
    (r.refresh_token = none → (s.updateTokens r now).refreshToken = s.refreshToken) ∧
      (r.user = none →
        (s.updateTokens r now).userId = s.userId ∧
          (s.updateTokens r now).countryCode = s.countryCode) ∧
      (s.refreshToken ≠ none → (s.updateTokens r now).refreshToken ≠ none) := by
  refine ⟨fun h => ?_, fun h => ?_, fun h => ?_⟩
  · cases hu : r.user <;> simp [TidalSession.updateTokens, h, jsTruthyStr, hu]
  · cases hjs : jsTruthyStr r.refresh_token <;>
      simp [TidalSession.updateTokens, h, hjs]
  · cases hjs : jsTruthyStr r.refresh_token
    · cases hu : r.user <;> simp [TidalSession.updateTokens, hjs, hu] <;> exact h
    · cases hrt : r.refresh_token with
      | none => rw [hrt] at hjs; simp [jsTruthyStr] at hjs
      | some v =>
        rw [hrt] at hjs
        cases hu : r.user <;> simp [TidalSession.updateTokens, hjs, hu, hrt]

/-- Concrete session for the C10 witness: a refresh token is stored. -/
def c10Session : TidalSession :=
  ⟨none, none, none, none, none, some 7, some "US", some "old", some "rt", some 1000⟩

/-- Concrete token response for the C10 witness: fresh access token, no
`refresh_token`, no `user` object. -/
def c10Response : TokenResponse :=
  ⟨"newAccess", none, 3600, none⟩

theorem updateTokens_frame_witness :
    (c10Session.updateTokens c10Response 5).refreshToken = c10Session.refreshToken ∧
      (c10Session.updateTokens c10Response 5).userId = c10Session.userId ∧
      (c10Session.updateTokens c10Response 5).countryCode = c10Session.countryCode ∧
      (c10Session.updateTokens c10Response 5).refreshToken ≠ none := by
  obtain ⟨h1, h2, h3⟩ := updateTokens_frame c10Session c10Response 5
  exact ⟨h1 rfl, (h2 rfl).1, (h2 rfl).2, h3 (by decide)⟩

/-- A session holding an access token but no refresh token: the refresh
operation's early-return path. -/
def c5NoRefreshSession : TidalSession :=
  ⟨none, none, none, none, none, some 7, some "US", some "tok", none, some 99⟩

/-- C5 counterexample: an invocation of the refresh operation on a session
with no refresh token fails (returns `false`, obtains no token pair), yet
the access token is left in place and nothing is persisted — contradicting
"every invocation that fails invalidates all token fields and persists the
cleared state". -/
theorem attemptTokenRefresh_failure_counterexample :
    (attemptTokenRefresh c5NoRefreshSession .httpError 0).succeeded = false ∧
      (attemptTokenRefresh c5NoRefreshSession .httpError 0).session.accessToken
        = some "tok" ∧
      (attemptTokenRefresh c5NoRefreshSession .httpError 0).session.userId = some 7 ∧
      (attemptTokenRefresh c5NoRefreshSession .httpError 0).persisted = none := by
  decide

/-- C5 (amended): when the session holds a refresh token, a failed
exchange invalidates all token fields, persists the cleared record, and
returns `false` (Unauthenticated); a successful exchange applies
`updateTokens`, persists the updated record, and returns `true`. -/
theorem attemptTokenRefresh_spec (s : TidalSession) (td : TokenResponse) (now : Nat)
    (h : s.hasRefreshToken = true) :
    (attemptTokenRefresh s .httpError now).succeeded = false ∧
      (attemptTokenRefresh s .httpError now).session = s.clearAuthDetails ∧
      (attemptTokenRefresh s .httpError now).session.accessToken = none ∧
      (attemptTokenRefresh s .httpError now).session.refreshToken = none ∧
      (attemptTokenRefresh s .httpError now).session.tokenExpiresAt = none ∧
      (attemptTokenRefresh s .httpError now).session.userId = none ∧
      (attemptTokenRefresh s .httpError now).session.countryCode = none ∧
      (attemptTokenRefresh s .httpError now).persisted
        = some ⟨none, none, none, none, none⟩ ∧
      (attemptTokenRefresh s (.ok td) now).succeeded = true ∧
      (attemptTokenRefresh s (.ok td) now).session = s.updateTokens td now ∧
      (attemptTokenRefresh s (.ok td) now).persisted
        = some (saveSessionRecord (s.updateTokens td now)) := by
  simp [attemptTokenRefresh, h, TidalSession.clearAuthDetails, saveSessionRecord]

/-- A session holding a refresh token, for the C5 witness. -/
def c5RefreshSession : TidalSession :=
  ⟨none, none, none, none, none, some 7, some "US", some "tok", some "rt", some 99⟩

/-- A successful token-endpoint body for the C5 witness. -/
def c5TokenResponse : TokenResponse :=
  ⟨"newAccess", some "newRefresh", 3600, some ⟨7, "US"⟩⟩

theorem attemptTokenRefresh_spec_witness :
    c5RefreshSession.hasRefreshToken = true ∧
      (attemptTokenRefresh c5RefreshSession .httpError 1000).session
        = c5RefreshSession.clearAuthDetails ∧
      (attemptTokenRefresh c5RefreshSession .httpError 1000).persisted
        = some ⟨none, none, none, none, none⟩ ∧
      (attemptTokenRefresh c5RefreshSession (.ok c5TokenResponse) 1000).succeeded
        = true := by
  obtain ⟨h1, h2, h3, h4, h5, h6, h7, h8, h9, h10, h11⟩ :=
    attemptTokenRefresh_spec c5RefreshSession c5TokenResponse 1000 (by decide)
  exact ⟨by decide, h2, h8, h9⟩

/-- A session with a populated refresh token, no device-flow fields, and a
falsy-but-present user id (`0`). -/
def c7FalsySession : TidalSession :=
  ⟨none, none, none, none, none, some 0, some "US", some "tok", some "rt", some 1000⟩

/-- C7 counterexample: persisting and reloading a session with a populated
refresh token and no device-flow fields does NOT always reproduce an
identical token/user/expiry state — the constructor's `|| null`
normalisation turns a stored falsy field (user id `0`) into `null` on
reload. -/
theorem saveLoad_roundtrip_counterexample :
    c7FalsySession.refreshToken = some "rt" ∧
      c7FalsySession.deviceCode = none ∧
      c7FalsySession.userCode = none ∧
      c7FalsySession.verificationUrl = none ∧
      c7FalsySession.authCheckTimeout = none ∧
      c7FalsySession.authCheckInterval = none ∧
      c7FalsySession.userId = some 0 ∧
      (loadSession (some (saveSessionRecord c7FalsySession))).userId = none ∧
      loadSession (some (saveSessionRecord c7FalsySession)) ≠ c7FalsySession := by
  decide

/-- C7 (amended): persisting then reloading a session with a populated
refresh token, no device-flow fields, and no falsy-but-present persisted
field (each persisted field is `null` or truthy, i.e. fixed by the
constructor's `|| null` normalisation) reproduces the identical session,
and in particular re-introduces no device-flow field.  The persisted
record type itself carries exactly the five token-related fields. -/
theorem saveLoad_roundtrip (s : TidalSession)
    (hdc : s.deviceCode = none) (huc : s.userCode = none)
    (hvu : s.verificationUrl = none) (hat : s.authCheckTimeout = none)
    (hai : s.authCheckInterval = none)
    (hui : orNullNat s.userId = s.userId)
    (hcc : orNullStr s.countryCode = s.countryCode)
    (htk : orNullStr s.accessToken = s.accessToken)
    (hrt : orNullStr s.refreshToken = s.refreshToken)
    (hpop : s.refreshToken ≠ none)
    (hte : orNullNat s.tokenExpiresAt = s.tokenExpiresAt) :
    loadSession (some (saveSessionRecord s)) = s ∧
      (loadSession (some (saveSessionRecord s))).deviceCode = none ∧
      (loadSession (some (saveSessionRecord s))).userCode = none ∧
      (loadSession (some (saveSessionRecord s))).verificationUrl = none ∧
      (loadSession (some (saveSessionRecord s))).authCheckTimeout = none ∧
      (loadSession (some (saveSessionRecord s))).authCheckInterval = none := by
  have hnoneS : orNullStr none = none := rfl
  have hnoneN : orNullNat none = none := rfl
  have hmain : loadSession (some (saveSessionRecord s)) = s := by
    rcases s with ⟨dc, uc, vu, atc, aci, ui, cc, tok, rt, te⟩
    simp only at hdc huc hvu hat hai
    subst hdc huc hvu hat hai
    simp only [loadSession, saveSessionRecord, TidalSession.ofInit]
    simp [TidalSession.mk.injEq, hnoneS, hnoneN, hui, hcc, htk, hrt, hte]
  refine ⟨hmain, ?_, ?_, ?_, ?_, ?_⟩ <;> rw [hmain] <;> assumption

/-- A well-formed persisted session for the C7 witness. -/
def c7GoodSession : TidalSession :=
  ⟨none, none, none, none, none, some 7, some "US", some "tok", some "rt", some 1000⟩

theorem saveLoad_roundtrip_witness :
    loadSession (some (saveSessionRecord c7GoodSession)) = c7GoodSession ∧
      (loadSession (some (saveSessionRecord c7GoodSession))).deviceCode = none ∧
      (loadSession (some (saveSessionRecord c7GoodSession))).userCode = none ∧
      (loadSession (some (saveSessionRecord c7GoodSession))).verificationUrl = none ∧
      (loadSession (some (saveSessionRecord c7GoodSession))).authCheckTimeout = none ∧
      (loadSession (some (saveSessionRecord c7GoodSession))).authCheckInterval
        = none :=
  saveLoad_roundtrip c7GoodSession rfl rfl rfl rfl rfl (by decide) (by decide)
    (by decide) (by decide) (by decide) (by decide)

/-- Number of issued requests in an event trace. -/
def countRequests : List FetchEvent → Nat
  | [] => 0
  | .request :: rest => countRequests rest + 1
  | .sleepMs _ :: rest => countRequests rest

/-- A network where the first three fetches are rate-limited
(`429, Retry-After: 5`) and the fourth would succeed. -/
def c3Outcomes : Nat → FetchOutcome := fun i =>
  if i < 3 then .http 429 (some 5) else .http 200 none

/-- C3 counterexample: with `maxRetries = 3`, three consecutive 429
responses exhaust the attempt budget — the run sleeps 5s after each of its
three requests and then throws the retry-exhausted error, never issuing
the fourth request that would have returned 200.  Each 429 retry therefore
does consume a retry attempt, contradicting the claim that the retry count
bounds only network-level failures. -/
theorem fetchWithRetry_429_consumes_attempt :
    (fetchWithRetry c3Outcomes 3).2 = .exhausted ∧
      (fetchWithRetry c3Outcomes 3).2 ≠ .response 200 none ∧
      (fetchWithRetry c3Outcomes 3).1
        = [.request, .sleepMs 5000, .request, .sleepMs 5000,
           .request, .sleepMs 5000] ∧
      countRequests (fetchWithRetry c3Outcomes 3).1 = 3 := by
  decide

theorem countRequests_fetchWithRetryGo_le (outcomes : Nat → FetchOutcome) :
    ∀ r attempt : Nat, countRequests (fetchWithRetryGo outcomes attempt r).1 ≤ r := by
  intro r
  induction r with
  | zero => intro attempt; simp [fetchWithRetryGo, countRequests]
  | succ r ih =>
    intro attempt
    cases h : outcomes attempt with
    | http status ra =>
      by_cases h429 : status = 429
      · subst h429
        simp only [fetchWithRetryGo, h, if_pos rfl]
        simpa [countRequests] using Nat.succ_le_succ (ih (attempt + 1))
      · simp [fetchWithRetryGo, h, h429, countRequests]
    | netError =>
      by_cases hr : r = 0
      · subst hr; simp [fetchWithRetryGo, h, countRequests]
      · simp only [fetchWithRetryGo, h, if_neg hr]
        simpa [countRequests] using Nat.succ_le_succ (ih (attempt + 1))

theorem fetchWithRetryGo_exhausted_of_429 (outcomes : Nat → FetchOutcome) :
    ∀ r attempt : Nat,
      (∀ i, attempt ≤ i → i < attempt + r → ∃ ra, outcomes i = .http 429 ra) →
      (fetchWithRetryGo outcomes attempt r).2 = .exhausted := by
  intro r
  induction r with
  | zero => intro attempt _; rfl
  | succ r ih =>
    intro attempt h
    obtain ⟨ra, hra⟩ := h attempt (le_refl _) (by omega)
    simp only [fetchWithRetryGo, hra, if_pos rfl]
    exact ih (attempt + 1) (fun i h1 h2 => h i (by omega) (by omega))

/-- C3 (amended): on an HTTP 429 the client sleeps `Retry-After` seconds
(default 20) and reissues the request — but the 429 retry consumes an
attempt from the same counter that bounds network failures: a run never
issues more than `maxRetries` requests, and `maxRetries` consecutive 429
responses exhaust the budget. -/
theorem fetchWithRetry_attempt_accounting :
    (∀ (outcomes : Nat → FetchOutcome) (maxRetries : Nat),
        countRequests (fetchWithRetry outcomes maxRetries).1 ≤ maxRetries) ∧
      (∀ (outcomes : Nat → FetchOutcome) (attempt r : Nat) (ra : Option Nat),
          outcomes attempt = .http 429 ra →
            fetchWithRetryGo outcomes attempt (r + 1)
              = (.request :: .sleepMs (ra.getD defaultRetryAfterSeconds * 1000)
                  :: (fetchWithRetryGo outcomes (attempt + 1) r).1,
                 (fetchWithRetryGo outcomes (attempt + 1) r).2)) ∧
      (∀ (outcomes : Nat → FetchOutcome) (maxRetries : Nat),
          (∀ i, i < maxRetries → ∃ ra, outcomes i = .http 429 ra) →
            (fetchWithRetry outcomes maxRetries).2 = .exhausted) := by
  refine ⟨?_, ?_, ?_⟩
  · intro outcomes maxRetries
    exact countRequests_fetchWithRetryGo_le outcomes maxRetries 0
  · intro outcomes attempt r ra h
    simp [fetchWithRetryGo, h]
  · intro outcomes maxRetries h
    exact fetchWithRetryGo_exhausted_of_429 outcomes maxRetries 0
      (fun i _ h2 => h i (by omega))

theorem fetchWithRetry_attempt_accounting_witness :
    fetchWithRetryGo c3Outcomes 0 3
        = (.request :: .sleepMs 5000 :: (fetchWithRetryGo c3Outcomes 1 2).1,
           (fetchWithRetryGo c3Outcomes 1 2).2) ∧
      (fetchWithRetry c3Outcomes 3).2 = .exhausted ∧
      countRequests (fetchWithRetry c3Outcomes 3).1 ≤ 3 := by
  obtain ⟨hbound, hstep, hexh⟩ := fetchWithRetry_attempt_accounting
  refine ⟨hstep c3Outcomes 0 2 (some 5) (by decide), hexh c3Outcomes 3 ?_,
    hbound c3Outcomes 3⟩
  intro i hi
  exact ⟨some 5, by unfold c3Outcomes; rw [if_pos hi]⟩

/-- Stability of a single ordered insert, at the bandwidth level: elements
with the inserted element's bandwidth keep their relative order, the new
element joining at the back of its tie class. -/
theorem filter_orderedInsert_bandwidth (b : Nat) (a : StreamVariant)
    (m : List StreamVariant) :
    (List.orderedInsert vcmp a m).filter (fun v => v.bandwidth == b)
      = if a.bandwidth == b
        then a :: m.filter (fun v => v.bandwidth == b)
        else m.filter (fun v => v.bandwidth == b) := by
  induction m with
  | nil =>
    by_cases ha : a.bandwidth = b <;>
      simp [List.orderedInsert, List.filter_cons, ha]
  | cons w ws ih =>
    by_cases hcmp : vcmp a w
    · simp only [List.orderedInsert, if_pos hcmp]
      simp [List.filter_cons]
    · simp only [List.orderedInsert, if_neg hcmp]
      simp only [List.filter_cons, ih]
      by_cases hw : w.bandwidth = b <;> by_cases ha : a.bandwidth = b
      · exact absurd (show vcmp a w from le_of_eq (hw.trans ha.symm)) hcmp
      · simp [hw, ha]
      · simp [hw, ha]
      · simp [hw, ha]

/-- Stability of the whole sort, at the bandwidth level. -/
theorem filter_insertionSort_bandwidth (b : Nat) (l : List StreamVariant) :
    (List.insertionSort vcmp l).filter (fun v => v.bandwidth == b)
      = l.filter (fun v => v.bandwidth == b) := by
  induction l with
  | nil => rfl
  | cons a l ih =>
    simp only [List.insertionSort, filter_orderedInsert_bandwidth, ih,
      List.filter_cons]

/-- The 3-variant master playlist of the C2 example, with bandwidths in
input order 500000, 1500000, 900000. -/
def c2Master : String :=
  "#EXTM3U\n#EXT-X-STREAM-INF:BANDWIDTH=500000,RESOLUTION=640x360,CODECS=\"avc1.4d401e,mp4a.40.2\"\nhttps://h.example/v/360.m3u8\n#EXT-X-STREAM-INF:BANDWIDTH=1500000,RESOLUTION=1280x720,CODECS=\"avc1.4d401f,mp4a.40.2\"\nhttps://h.example/v/720.m3u8\n#EXT-X-STREAM-INF:BANDWIDTH=900000,RESOLUTION=854x480,CODECS=\"avc1.4d401e,mp4a.40.2\"\nhttps://h.example/v/480.m3u8\n"

/-- C2: for every master-playlist input the returned variants are sorted
by descending bandwidth, ties keeping their input (scan) order — the sort
is stable; and the 3-variant example with bandwidths
[500000, 1500000, 900000] comes out ordered [1500000, 900000, 500000]. -/
theorem masterPlaylist_sorted_descending_stable :
    (∀ content : String,
        List.Sorted vcmp (parseM3U8MasterPlaylist content)) ∧
      (∀ (content : String) (b : Nat),
          (parseM3U8MasterPlaylist content).filter (fun v => v.bandwidth == b)
            = (scanMasterLines (splitOnNL content.toList) none).filter
                (fun v => v.bandwidth == b)) ∧
      (parseM3U8MasterPlaylist c2Master).map (fun v => v.bandwidth)
        = [1500000, 900000, 500000] := by
  refine ⟨?_, ?_, ?_⟩
  · intro content
    exact List.sorted_insertionSort vcmp _
  · intro content b
    exact filter_insertionSort_bandwidth b _
  · decide

/-- `1` for a pending marker, `0` for none: slack term of the length
bound on the master-playlist scan. -/
def pendingCredit : Option (List Char) → Nat
  | none => 0
  | some _ => 1

theorem scanMasterLines_length_le (lines : List (List Char)) :
    ∀ pending : Option (List Char),
      (scanMasterLines lines pending).length
        ≤ lines.countP (fun l => isStreamInfMarker (jsTrim l))
          + pendingCredit pending := by
  induction lines with
  | nil => intro pending; simp [scanMasterLines]
  | cons line rest ih =>
    intro pending
    cases pending with
    | none =>
      by_cases hm : isStreamInfMarker (jsTrim line) = true
      · have h1 := ih (some (jsTrim line))
        simp only [pendingCredit] at h1 ⊢
        simp [scanMasterLines, hm, List.countP_cons]
        omega
      · have h1 := ih none
        simp only [pendingCredit] at h1 ⊢
        simp [scanMasterLines, hm, List.countP_cons]
        omega
    | some info =>
      by_cases hm : isStreamInfMarker (jsTrim line) = true
      · have h1 := ih (some (jsTrim line))
        simp only [pendingCredit] at h1 ⊢
        simp [scanMasterLines, hm, List.countP_cons]
        omega
      · by_cases hurl : isAbsoluteUrlStart (jsTrim line) = true
        · have h1 := ih none
          simp only [pendingCredit] at h1 ⊢
          simp [scanMasterLines, hm, hurl, List.countP_cons]
          omega
        · have h1 := ih (some info)
          simp only [pendingCredit] at h1 ⊢
          simp [scanMasterLines, hm, hurl, List.countP_cons]
          omega

theorem scanMasterLines_eq_nil_of_no_url (lines : List (List Char)) :
    ∀ pending : Option (List Char),
      (∀ l ∈ lines, isAbsoluteUrlStart (jsTrim l) = false) →
      scanMasterLines lines pending = [] := by
  induction lines with
  | nil => intro pending _; rfl
  | cons line rest ih =>
    intro pending h
    have hline := h line (List.mem_cons_self line rest)
    have hrest : ∀ l ∈ rest, isAbsoluteUrlStart (jsTrim l) = false :=
      fun l hl => h l (List.mem_cons_of_mem line hl)
    by_cases hm : isStreamInfMarker (jsTrim line) = true
    · simp [scanMasterLines, hm, ih _ hrest]
    · cases pending with
      | some info => simp [scanMasterLines, hm, hline, ih _ hrest]
      | none => simp [scanMasterLines, hm, ih _ hrest]

theorem scanMasterLines_eq_nil_of_no_marker (lines : List (List Char)) :
    (∀ l ∈ lines, isStreamInfMarker (jsTrim l) = false) →
      scanMasterLines lines none = [] := by
  induction lines with
  | nil => intro _; rfl
  | cons line rest ih =>
    intro h
    have hline := h line (List.mem_cons_self line rest)
    have hrest : ∀ l ∈ rest, isStreamInfMarker (jsTrim l) = false :=
      fun l hl => h l (List.mem_cons_of_mem line hl)
    simp [scanMasterLines, hline, ih hrest]

theorem url_of_mem_scanMasterLines (lines : List (List Char)) :
    ∀ (pending : Option (List Char)) (v : StreamVariant),
      v ∈ scanMasterLines lines pending →
      ∃ l ∈ lines, v.url = (jsTrim l).asString
        ∧ isAbsoluteUrlStart (jsTrim l) = true := by
  induction lines with
  | nil => intro pending v hv; simp [scanMasterLines] at hv
  | cons line rest ih =>
    intro pending v hv
    by_cases hm : isStreamInfMarker (jsTrim line) = true
    · simp only [scanMasterLines, if_pos hm] at hv
      obtain ⟨l, hl, h1, h2⟩ := ih _ v hv
      exact ⟨l, List.mem_cons_of_mem line hl, h1, h2⟩
    · cases pending with
      | some info =>
        by_cases hurl : isAbsoluteUrlStart (jsTrim line) = true
        · rw [show scanMasterLines (line :: rest) (some info)
              = mkStreamVariant info (jsTrim line) :: scanMasterLines rest none by
            simp [scanMasterLines, hm, hurl]] at hv
          rcases List.mem_cons.mp hv with hveq | hvmem
          · subst hveq
            exact ⟨line, List.mem_cons_self line rest, rfl, hurl⟩
          · obtain ⟨l, hl, h1, h2⟩ := ih _ v hvmem
            exact ⟨l, List.mem_cons_of_mem line hl, h1, h2⟩
        · rw [show scanMasterLines (line :: rest) (some info)
              = scanMasterLines rest (some info) by
            simp [scanMasterLines, hm, hurl]] at hv
          obtain ⟨l, hl, h1, h2⟩ := ih _ v hv
          exact ⟨l, List.mem_cons_of_mem line hl, h1, h2⟩
      | none =>
        rw [show scanMasterLines (line :: rest) none
            = scanMasterLines rest none by simp [scanMasterLines, hm]] at hv
        obtain ⟨l, hl, h1, h2⟩ := ih _ v hv
        exact ⟨l, List.mem_cons_of_mem line hl, h1, h2⟩

/-- C9: a variant is emitted only for an absolute-URL line after a
stream-information marker: the number of emitted variants never exceeds
the number of marker lines (each marker is consumed by at most one
variant), an input with no marker line yields no variant no matter how
many URL lines it has (URL with no pending marker is ignored), an input
with no absolute-URL line yields no variant no matter how many markers it
has, and every emitted variant's URL is the trim of an input line starting
with `http://` or `https://`; none of these situations throws. -/
theorem masterScan_marker_url_pairing :
    (∀ lines : List (List Char),
        (scanMasterLines lines none).length
          ≤ lines.countP (fun l => isStreamInfMarker (jsTrim l))) ∧
      (∀ (lines : List (List Char)) (pending : Option (List Char)),
          (∀ l ∈ lines, isAbsoluteUrlStart (jsTrim l) = false) →
            scanMasterLines lines pending = []) ∧
      (∀ lines : List (List Char),
          (∀ l ∈ lines, isStreamInfMarker (jsTrim l) = false) →
            scanMasterLines lines none = []) ∧
      (∀ (lines : List (List Char)) (v : StreamVariant),
          v ∈ scanMasterLines lines none →
            ∃ l ∈ lines, v.url = (jsTrim l).asString
              ∧ isAbsoluteUrlStart (jsTrim l) = true) := by
  refine ⟨?_, ?_, ?_, ?_⟩
  · intro lines
    have h := scanMasterLines_length_le lines none
    simpa [pendingCredit] using h
  · intro lines pending h
    exact scanMasterLines_eq_nil_of_no_url lines pending h
  · intro lines h
    exact scanMasterLines_eq_nil_of_no_marker lines h
  · intro lines v hv
    exact url_of_mem_scanMasterLines lines none v hv

theorem masterScan_marker_url_pairing_witness :
    scanMasterLines (splitOnNL "https://h.example/v/720.m3u8".toList) none = [] ∧
      scanMasterLines (splitOnNL "#EXT-X-STREAM-INF:BANDWIDTH=1".toList) none
        = [] := by
  obtain ⟨_, hnourl, hnomarker, _⟩ := masterScan_marker_url_pairing
  constructor
  · exact hnomarker _ (by decide)
  · exact hnourl _ none (by decide)

/-- Wrap one SegmentTemplate into a full manifest document:
`MPD → Period[0] → AdaptationSet[0] → Representation[0] → SegmentTemplate[0]`. -/
def mkDocOfTemplate (st : SegmentTemplateX) : ManifestDoc :=
  ⟨some ⟨some [⟨some [⟨some [⟨some [st]⟩]⟩]⟩]⟩⟩

/-- The repeat count of one timeline slice as the source reads it
(`segment.$.r ? parseInt(segment.$.r, 10) : 0`): `some 0` when `r` is
absent or falsy, `some k` for nonnegative numeric `r`, and `none` when
`parseInt` gives `NaN` or a negative value. -/
def sliceRepeat (sl : TimelineSliceS) : Option Nat :=
  if jsTruthyStr sl.r then
    match jsParseInt (sl.r.getD "") with
    | none => none
    | some k => if k < 0 then none else some k.toNat
  else some 0

theorem sliceEmitCount_eq_repeat_add_one (sl : TimelineSliceS) (k : Nat)
    (h : sliceRepeat sl = some k) : sliceEmitCount sl = k + 1 := by
  by_cases ht : jsTruthyStr sl.r = true
  · cases hp : jsParseInt (sl.r.getD "") with
    | none => simp [sliceRepeat, ht, hp] at h
    | some j =>
      by_cases hneg : j < 0
      · simp [sliceRepeat, ht, hp, hneg] at h
      · simp only [sliceRepeat, ht, hp, if_pos, if_neg hneg,
          Option.some.injEq] at h
        simp only [sliceEmitCount, ht, hp, if_pos, if_neg hneg]
        omega
  · simp only [sliceRepeat, if_neg ht, Option.some.injEq] at h
    simp only [sliceEmitCount, if_neg ht]
    omega

theorem sum_sliceEmitCount (slices : List TimelineSliceS)
    (hr : ∀ sl ∈ slices, (sliceRepeat sl).isSome = true) :
    (slices.map sliceEmitCount).sum
      = (slices.map (fun sl => 1 + (sliceRepeat sl).getD 0)).sum := by
  induction slices with
  | nil => rfl
  | cons sl rest ih =>
    obtain ⟨k, hk⟩ := Option.isSome_iff_exists.mp
      (hr sl (List.mem_cons_self sl rest))
    have hrest := ih (fun s hs => hr s (List.mem_cons_of_mem sl hs))
    simp only [List.map_cons, List.sum_cons,
      sliceEmitCount_eq_repeat_add_one sl k hk, hk, hrest, Option.getD_some]
    omega

/-- The media descriptor (URL and local basename) emitted for one segment
number. -/
def mediaPair (media : String) (m : Int) : String × String :=
  let url := jsReplaceFirst media "$Number$" (toString m)
  (url, urlBasename url)

theorem emitMediaSegments_spec (media : String) :
    ∀ (count : Nat) (k : Int),
      emitMediaSegments media (some k) count
        = ((List.range count).map (fun i : Nat => mediaPair media (k + i)),
           some (k + count)) := by
  intro count
  induction count with
  | zero => intro k; simp [emitMediaSegments]
  | succ c ih =>
    intro k
    have h1 : emitMediaSegments media (some k) (c + 1)
        = (mediaPair media k :: (emitMediaSegments media (some (k + 1)) c).1,
           (emitMediaSegments media (some (k + 1)) c).2) := rfl
    rw [h1, ih (k + 1)]
    have h2 : (List.range (c + 1)).map (fun i : Nat => mediaPair media (k + i))
        = mediaPair media k
            :: (List.range c).map (fun i : Nat => mediaPair media ((k + 1) + i)) := by
      rw [List.range_succ_eq_map, List.map_cons, List.map_map]
      congr 1
      · norm_num
      · apply List.map_congr_left
        intro i _
        simp only [Function.comp_apply]
        congr 1
        push_cast
        ring
    rw [h2]
    have h3 : (k + 1) + (c : Int) = k + ((c + 1 : Nat) : Int) := by
      push_cast; ring
    rw [h3]

theorem buildTimelineSegments_spec (media : String) :
    ∀ (slices : List TimelineSliceS) (k : Int),
      buildTimelineSegments media (some k) slices
        = (List.range ((slices.map sliceEmitCount).sum)).map
            (fun i : Nat => mediaPair media (k + i)) := by
  intro slices
  induction slices with
  | nil => intro k; simp [buildTimelineSegments]
  | cons sl rest ih =>
    intro k
    have h1 : buildTimelineSegments media (some k) (sl :: rest)
        = (emitMediaSegments media (some k) (sliceEmitCount sl)).1
            ++ buildTimelineSegments media
                (emitMediaSegments media (some k) (sliceEmitCount sl)).2 rest := rfl
    rw [h1, emitMediaSegments_spec media (sliceEmitCount sl) k]
    rw [ih (k + (sliceEmitCount sl : Int))]
    rw [List.map_cons, List.sum_cons, List.range_add, List.map_append,
      List.map_map]
    congr 1
    apply List.map_congr_left
    intro i _
    simp only [Function.comp_apply]
    congr 1
    push_cast
    ring

/-- C1: for every audio manifest whose SegmentTemplate carries an
initialization URL, a media template and a (numeric) startNumber, and
whose timeline is a non-empty list of slices each with a well-formed
optional repeat count, the resolver returns the initialization URL at
ordinal 0 followed by exactly `sum (1 + r)` media descriptors, whose URLs
substitute successive integers (starting at startNumber, incrementing by
one per emitted descriptor) into the template's `$Number$` placeholder. -/
theorem audioResolver_descriptor_sequence (init media sn : String)
    (slices : List TimelineSliceS) (n : Nat)
    (hinit : init ≠ "") (hmedia : media ≠ "") (hsnne : sn ≠ "")
    (hsn : jsParseInt sn = some (n : Int))
    (hne : slices ≠ [])
    (hr : ∀ sl ∈ slices, (sliceRepeat sl).isSome = true) :
    (parseManifestAndExtractSegments
        (mkDocOfTemplate ⟨some init, some media, some sn, some [⟨some slices⟩]⟩)).map
        (fun listing => listing.segmentUrls)
      = .ok (init :: (List.range
            ((slices.map (fun sl => 1 + (sliceRepeat sl).getD 0)).sum)).map
          (fun i : Nat =>
            jsReplaceFirst media "$Number$" (toString ((n : Int) + i)))) := by
  have hempty : slices.isEmpty = false := by
    cases slices with
    | nil => exact absurd rfl hne
    | cons a l => rfl
  have hsum := sum_sliceEmitCount slices hr
  simp only [parseManifestAndExtractSegments, mkDocOfTemplate, findRepresentation,
    Option.some_bind, List.head?_cons]
  simp only [jsTruthyStr, hsn]
  simp [hinit, hmedia, hsnne, hempty, buildTimelineSegments_spec, ← hsum,
    List.map_map, Except.map, mediaPair, Function.comp]
  rw [hsn, buildTimelineSegments_spec]
  simp [List.map_map, mediaPair, Function.comp]

/-- The audio SegmentTemplate of the C1 witness: `startNumber = 1`, one
timeline slice `{d: 1920, r: 2}`, template `seg_$Number$.m4s`. -/
def c1Template : SegmentTemplateX :=
  ⟨some "https://h.example/a/init.mp4",
   some "https://h.example/a/seg_$Number$.m4s",
   some "1",
   some [⟨some [⟨some "1920", some "2"⟩]⟩]⟩

theorem audioResolver_descriptor_sequence_witness :
    (parseManifestAndExtractSegments (mkDocOfTemplate c1Template)).map
        (fun listing => listing.segmentUrls)
      = .ok ["https://h.example/a/init.mp4",
             "https://h.example/a/seg_1.m4s",
             "https://h.example/a/seg_2.m4s",
             "https://h.example/a/seg_3.m4s"] := by
  have h := audioResolver_descriptor_sequence "https://h.example/a/init.mp4"
    "https://h.example/a/seg_$Number$.m4s" "1" [⟨some "1920", some "2"⟩] 1
    (by decide) (by decide) (by decide) (by decide) (by decide) (by decide)
  exact h.trans (by rfl)

/-- Error test on the resolver's result. -/
def isManifestError : Except String SegmentListing → Bool
  | .error _ => true
  | .ok _ => false

/-- C8: an audio manifest whose SegmentTemplate lacks the initialization
URL, the media template or startNumber, or whose segment timeline is
missing or empty, makes the audio resolver throw a fatal manifest error —
it does not return a descriptor sequence. -/
theorem audioResolver_missing_attr_fatal (st : SegmentTemplateX)
    (h : st.initialization = none ∨ st.media = none ∨ st.startNumber = none
        ∨ (st.SegmentTimeline.bind List.head?).bind (·.S) = none
        ∨ (st.SegmentTimeline.bind List.head?).bind (·.S) = some []) :
    isManifestError (parseManifestAndExtractSegments (mkDocOfTemplate st)) = true := by
  rcases st with ⟨oinit, omedia, osn, otl⟩
  simp only at h
  by_cases hc : (jsTruthyStr oinit && jsTruthyStr omedia && jsTruthyStr osn) = true
  · rcases h with h | h | h | h | h
    · rw [h] at hc; simp [jsTruthyStr] at hc
    · rw [h] at hc; simp [jsTruthyStr] at hc
    · rw [h] at hc; simp [jsTruthyStr] at hc
    · simp [isManifestError, parseManifestAndExtractSegments, mkDocOfTemplate,
        findRepresentation, hc, h]
    · simp [isManifestError, parseManifestAndExtractSegments, mkDocOfTemplate,
        findRepresentation, hc, h]
  · rw [Bool.not_eq_true] at hc
    simp [isManifestError, parseManifestAndExtractSegments, mkDocOfTemplate,
      findRepresentation, hc]

/-- A SegmentTemplate lacking its media template, for the C8 witness. -/
def c8Template : SegmentTemplateX :=
  ⟨some "https://h.example/a/init.mp4", none, some "1",
   some [⟨some [⟨some "1920", none⟩]⟩]⟩

theorem audioResolver_missing_attr_fatal_witness :
    isManifestError (parseManifestAndExtractSegments (mkDocOfTemplate c8Template))
      = true :=
  audioResolver_missing_attr_fatal c8Template (Or.inr (Or.inl rfl))

end TidalDL
